import Mathlib

/-!
# Shallow embedding of the `InvoiceManager` Solidity contract

This file embeds the invoice ledger of `InvoiceManager`
(`src/packages/hardhat/scripts/payInvoice.ts`, the Solidity contract section)
and proves the specification claims about it.

Modelling choices:
* Ethereum addresses are naturals; `0` is the zero address (`address(0)`),
  which the contract uses both for "open invoice" (`payer == 0`) and for
  "invoice does not exist" (`issuer == 0`).
* `uint256` amounts are naturals. `invoice.amount - invoice.paidAmount` uses
  truncated subtraction; on states satisfying the `paidAmount ≤ amount`
  invariant (proved below for all reachable states) this agrees with the
  contract's checked subtraction.
* Solidity mappings become total functions with the zero default
  (`Invoice` of all zeros, `0`, `""`, `[]`), exactly EVM storage semantics.
* Each external function becomes a function `LedgerState → args → LedgerState
  × Except LedgerError ρ`. A `require` failure (EVM revert) returns the input
  state unchanged together with the error. The external `sendValue` call in
  `withdraw`/`withdrawPending` is modelled by a `transferOk : Bool` argument:
  when the transfer fails the whole call reverts, so the returned state is the
  input state.
-/

/-- Invoice record, mirroring the Solidity struct `Invoice`. -/
structure Invoice where
  id : Nat
  issuer : Nat
  payer : Nat
  amount : Nat
  paidAmount : Nat
  dueDate : Nat
  cancelled : Bool
deriving Repr, DecidableEq

/-- The all-zero invoice: the default value of the `invoices` mapping. -/
def emptyInvoice : Invoice :=
  { id := 0, issuer := 0, payer := 0, amount := 0, paidAmount := 0,
    dueDate := 0, cancelled := false }

/-- Contract storage of `InvoiceManager`. -/
structure LedgerState where
  nextInvoiceId : Nat
  invoices : Nat → Invoice
  invoiceMetadata : Nat → String
  pendingReturns : Nat → Nat
  invoicesOfIssuer : Nat → List Nat
  invoicesOfPayer : Nat → List Nat

/-- Storage right after deployment: every mapping at its zero default. -/
def initState : LedgerState :=
  { nextInvoiceId := 0
    invoices := fun _ => emptyInvoice
    invoiceMetadata := fun _ => ""
    pendingReturns := fun _ => 0
    invoicesOfIssuer := fun _ => []
    invoicesOfPayer := fun _ => [] }

/-- The error kinds of the contract (one per distinct `require` message,
named as in the specification). -/
inductive LedgerError where
  | InvalidAmount
  | InvoiceNotFound
  | InvoiceCancelled
  | UnauthorizedPayer
  | AlreadyFullyPaid
  | Unauthorized
  | NoFundsToWithdraw
  | AlreadyCancelled
  | NoPendingReturns
  | TransferFailed
deriving Repr, DecidableEq

/-- `createInvoice(payer, amount, dueDate, metadata)` called by `caller`
(`msg.sender`). Returns the new invoice id. -/
def createInvoice (s : LedgerState) (caller payer amount dueDate : Nat)
    (metadata : String) : LedgerState × Except LedgerError Nat :=
  if amount = 0 then (s, .error .InvalidAmount)
  else
    let invoiceId := s.nextInvoiceId
    ({ nextInvoiceId := invoiceId + 1
       invoices := Function.update s.invoices invoiceId
         { id := invoiceId, issuer := caller, payer := payer, amount := amount,
           paidAmount := 0, dueDate := dueDate, cancelled := false }
       invoiceMetadata := Function.update s.invoiceMetadata invoiceId metadata
       pendingReturns := s.pendingReturns
       invoicesOfIssuer := Function.update s.invoicesOfIssuer caller
         (s.invoicesOfIssuer caller ++ [invoiceId])
       invoicesOfPayer :=
         if payer ≠ 0 then
           Function.update s.invoicesOfPayer payer
             (s.invoicesOfPayer payer ++ [invoiceId])
         else s.invoicesOfPayer },
     .ok invoiceId)

/-- `payInvoice(invoiceId)` called by `caller` with `msg.value = value`.
Returns the pair `(paymentAmount, new paidAmount)` emitted by `InvoicePaid`. -/
def payInvoice (s : LedgerState) (caller invoiceId value : Nat) :
    LedgerState × Except LedgerError (Nat × Nat) :=
  if value = 0 then (s, .error .InvalidAmount)
  else
    let invoice := s.invoices invoiceId
    if invoice.issuer = 0 then (s, .error .InvoiceNotFound)
    else if invoice.cancelled then (s, .error .InvoiceCancelled)
    else if ¬ (invoice.payer = 0 ∨ invoice.payer = caller) then
      (s, .error .UnauthorizedPayer)
    else
      let remaining := invoice.amount - invoice.paidAmount
      if remaining = 0 then (s, .error .AlreadyFullyPaid)
      else
        let overpay := if remaining < value then value - remaining else 0
        let paymentAmount := if remaining < value then remaining else value
        ({ s with
            invoices := Function.update s.invoices invoiceId
              { invoice with paidAmount := invoice.paidAmount + paymentAmount }
            pendingReturns :=
              if remaining < value then
                Function.update s.pendingReturns caller
                  (s.pendingReturns caller + overpay)
              else s.pendingReturns },
         .ok (paymentAmount, invoice.paidAmount + paymentAmount))

/-- `withdraw(invoiceId)` called by `caller`. `transferOk` is the outcome of
the external `sendValue` transfer; a failed transfer reverts the whole call.
Returns the withdrawn amount. -/
def withdraw (s : LedgerState) (caller invoiceId : Nat) (transferOk : Bool) :
    LedgerState × Except LedgerError Nat :=
  let invoice := s.invoices invoiceId
  if invoice.issuer = 0 then (s, .error .InvoiceNotFound)
  else if ¬ invoice.issuer = caller then (s, .error .Unauthorized)
  else if invoice.paidAmount = 0 then (s, .error .NoFundsToWithdraw)
  else
    let withdrawAmount := invoice.paidAmount
    let inv1 := { invoice with paidAmount := 0 }
    if transferOk then
      ({ s with invoices := Function.update s.invoices invoiceId inv1 },
       .ok withdrawAmount)
    else (s, .error .TransferFailed)

/-- `cancelInvoice(invoiceId)` called by `caller`. -/
def cancelInvoice (s : LedgerState) (caller invoiceId : Nat) :
    LedgerState × Except LedgerError Unit :=
  let invoice := s.invoices invoiceId
  if invoice.issuer = 0 then (s, .error .InvoiceNotFound)
  else if ¬ invoice.issuer = caller then (s, .error .Unauthorized)
  else if invoice.cancelled then (s, .error .AlreadyCancelled)
  else
    let invRefunded := { invoice with cancelled := true, paidAmount := 0 }
    let invCancelled := { invoice with cancelled := true }
    if 0 < invoice.paidAmount ∧ invoice.payer ≠ 0 then
      ({ s with
          invoices := Function.update s.invoices invoiceId invRefunded
          pendingReturns := Function.update s.pendingReturns invoice.payer
            (s.pendingReturns invoice.payer + invoice.paidAmount) },
       .ok ())
    else
      ({ s with invoices := Function.update s.invoices invoiceId invCancelled },
       .ok ())

/-- `withdrawPending()` called by `caller`; `transferOk` as in `withdraw`.
Returns the withdrawn amount. -/
def withdrawPending (s : LedgerState) (caller : Nat) (transferOk : Bool) :
    LedgerState × Except LedgerError Nat :=
  let amount := s.pendingReturns caller
  if amount = 0 then (s, .error .NoPendingReturns)
  else if transferOk then
    ({ s with pendingReturns := Function.update s.pendingReturns caller 0 },
     .ok amount)
  else (s, .error .TransferFailed)

/-- `getInvoice(invoiceId)`: read-only, returns the record and its metadata. -/
def getInvoice (s : LedgerState) (invoiceId : Nat) :
    Except LedgerError (Invoice × String) :=
  let invoice := s.invoices invoiceId
  if invoice.issuer = 0 then .error .InvoiceNotFound
  else .ok (invoice, s.invoiceMetadata invoiceId)

/-- `getRemainingAmount(invoiceId)`: read-only. -/
def getRemainingAmount (s : LedgerState) (invoiceId : Nat) :
    Except LedgerError Nat :=
  let invoice := s.invoices invoiceId
  if invoice.issuer = 0 then .error .InvoiceNotFound
  else if invoice.paidAmount < invoice.amount then
    .ok (invoice.amount - invoice.paidAmount)
  else .ok 0

/-- Ledger states reachable from deployment by any sequence of calls by
nonzero accounts (on-chain, `msg.sender` is never the zero address). Failed
calls return the input state, so this also covers sequences of successful
calls only. -/
inductive Reachable : LedgerState → Prop where
  | init : Reachable initState
  | create (s : LedgerState) (caller payer amount dueDate : Nat)
      (metadata : String) (h : Reachable s) (hc : caller ≠ 0) :
      Reachable (createInvoice s caller payer amount dueDate metadata).1
  | pay (s : LedgerState) (caller invoiceId value : Nat)
      (h : Reachable s) (hc : caller ≠ 0) :
      Reachable (payInvoice s caller invoiceId value).1
  | withdrawStep (s : LedgerState) (caller invoiceId : Nat) (transferOk : Bool)
      (h : Reachable s) (hc : caller ≠ 0) :
      Reachable (withdraw s caller invoiceId transferOk).1
  | cancel (s : LedgerState) (caller invoiceId : Nat)
      (h : Reachable s) (hc : caller ≠ 0) :
      Reachable (cancelInvoice s caller invoiceId).1
  | withdrawPendingStep (s : LedgerState) (caller : Nat) (transferOk : Bool)
      (h : Reachable s) (hc : caller ≠ 0) :
      Reachable (withdrawPending s caller transferOk).1

example :
    ((payInvoice (createInvoice initState 1 2 100 0 "").1 2 0 150).1.invoices
      0).paidAmount = 100 := by decide

example :
    (payInvoice (createInvoice initState 1 2 100 0 "").1 2 0
      150).1.pendingReturns 2 = 50 := by decide

/-- The combined state invariant: every invoice satisfies
`paidAmount ≤ amount`, and a nonzero issuer characterises exactly the ids
below `nextInvoiceId`. -/
def LedgerInv (s : LedgerState) : Prop :=
  (∀ invoiceId,
      (s.invoices invoiceId).paidAmount ≤ (s.invoices invoiceId).amount) ∧
  (∀ invoiceId,
      ((s.invoices invoiceId).issuer ≠ 0 ↔ invoiceId < s.nextInvoiceId))

theorem ledgerInv_init : LedgerInv initState := by
  refine ⟨fun invoiceId => ?_, fun invoiceId => ?_⟩ <;>
    simp [initState, emptyInvoice]

theorem ledgerInv_create (s : LedgerState) (caller payer amount dueDate : Nat)
    (metadata : String) (hc : caller ≠ 0) (h : LedgerInv s) :
    LedgerInv (createInvoice s caller payer amount dueDate metadata).1 := by
  obtain ⟨h1, h2⟩ := h
  simp only [createInvoice]
  split_ifs with ha hp
  · exact ⟨h1, h2⟩
  all_goals {
    refine ⟨fun j => ?_, fun j => ?_⟩ <;> by_cases hj : j = s.nextInvoiceId
    · subst hj; simp [Function.update_same]
    · simpa [Function.update_noteq hj] using h1 j
    · subst hj; simp [Function.update_same, hc]
    · simp only [Function.update_noteq hj]
      exact ⟨fun hne => Nat.lt_succ_of_lt ((h2 j).1 hne),
        fun hlt => (h2 j).2 (lt_of_le_of_ne (Nat.lt_succ_iff.mp hlt) hj)⟩
  }

theorem ledgerInv_pay (s : LedgerState) (caller invoiceId value : Nat)
    (h : LedgerInv s) : LedgerInv (payInvoice s caller invoiceId value).1 := by
  obtain ⟨h1, h2⟩ := h
  have hpa := h1 invoiceId
  simp only [payInvoice]
  split_ifs with hv he hcanc hauth hrem hover <;> try exact ⟨h1, h2⟩
  all_goals {
    refine ⟨fun j => ?_, fun j => ?_⟩ <;> by_cases hj : j = invoiceId
    · subst hj; simp only [Function.update_same]; omega
    · simpa [Function.update_noteq hj] using h1 j
    · subst hj; simpa [Function.update_same] using h2 j
    · simpa [Function.update_noteq hj] using h2 j
  }

theorem ledgerInv_withdraw (s : LedgerState) (caller invoiceId : Nat)
    (transferOk : Bool) (h : LedgerInv s) :
    LedgerInv (withdraw s caller invoiceId transferOk).1 := by
  obtain ⟨h1, h2⟩ := h
  simp only [withdraw]
  split_ifs with he hiss hp ht <;> try exact ⟨h1, h2⟩
  refine ⟨fun j => ?_, fun j => ?_⟩ <;> by_cases hj : j = invoiceId
  · subst hj; simp [Function.update_same]
  · simpa [Function.update_noteq hj] using h1 j
  · subst hj; simpa [Function.update_same] using h2 j
  · simpa [Function.update_noteq hj] using h2 j

theorem ledgerInv_cancel (s : LedgerState) (caller invoiceId : Nat)
    (h : LedgerInv s) : LedgerInv (cancelInvoice s caller invoiceId).1 := by
  obtain ⟨h1, h2⟩ := h
  simp only [cancelInvoice]
  split_ifs with he hiss hcanc href <;> try exact ⟨h1, h2⟩
  all_goals {
    refine ⟨fun j => ?_, fun j => ?_⟩ <;> by_cases hj : j = invoiceId
    · subst hj; simp only [Function.update_same]
      first
      | exact Nat.zero_le _
      | exact h1 j
    · simpa [Function.update_noteq hj] using h1 j
    · subst hj; simpa [Function.update_same] using h2 j
    · simpa [Function.update_noteq hj] using h2 j
  }

theorem ledgerInv_withdrawPending (s : LedgerState) (caller : Nat)
    (transferOk : Bool) (h : LedgerInv s) :
    LedgerInv (withdrawPending s caller transferOk).1 := by
  obtain ⟨h1, h2⟩ := h
  simp only [withdrawPending]
  split_ifs <;> exact ⟨h1, h2⟩

/-- Every reachable state satisfies the combined ledger invariant. -/
theorem reachable_ledgerInv (s : LedgerState) (h : Reachable s) :
    LedgerInv s := by
  induction h with
  | init => exact ledgerInv_init
  | create s caller payer amount dueDate metadata h hc ih =>
      exact ledgerInv_create s caller payer amount dueDate metadata hc ih
  | pay s caller invoiceId value h hc ih =>
      exact ledgerInv_pay s caller invoiceId value ih
  | withdrawStep s caller invoiceId transferOk h hc ih =>
      exact ledgerInv_withdraw s caller invoiceId transferOk ih
  | cancel s caller invoiceId h hc ih =>
      exact ledgerInv_cancel s caller invoiceId ih
  | withdrawPendingStep s caller transferOk h hc ih =>
      exact ledgerInv_withdrawPending s caller transferOk ih

/-- C1: every reachable ledger state (any sequence of createInvoice,
payInvoice, withdraw, cancelInvoice, withdrawPending calls from the empty
ledger) satisfies `0 ≤ paidAmount ≤ amount` for every invoice; in
particular payInvoice caps the applied payment at the remaining amount.
(`0 ≤ paidAmount` is automatic for naturals.) -/
theorem paidAmount_le_amount_of_reachable (s : LedgerState)
    (h : Reachable s) (invoiceId : Nat) :
    (s.invoices invoiceId).paidAmount ≤ (s.invoices invoiceId).amount :=
  (reachable_ledgerInv s h).1 invoiceId

theorem paidAmount_le_amount_of_reachable_witness :
    ((payInvoice (createInvoice initState 1 2 100 0 "").1 2 0
        150).1.invoices 0).paidAmount ≤
      ((payInvoice (createInvoice initState 1 2 100 0 "").1 2 0
        150).1.invoices 0).amount :=
  paidAmount_le_amount_of_reachable _
    (Reachable.pay _ 2 0 150
      (Reachable.create initState 1 2 100 0 "" Reachable.init (by decide))
      (by decide)) 0

/-- C10: in every reachable state, an invoice record exists (nonzero issuer)
exactly for the ids `0 .. nextInvoiceId - 1`, so the code's existence test
`issuer != 0` is equivalent to `id < nextInvoiceId`. -/
theorem issuer_nonzero_iff_lt_nextInvoiceId (s : LedgerState)
    (h : Reachable s) (invoiceId : Nat) :
    ((s.invoices invoiceId).issuer ≠ 0 ↔ invoiceId < s.nextInvoiceId) :=
  (reachable_ledgerInv s h).2 invoiceId

theorem issuer_nonzero_iff_lt_nextInvoiceId_witness :
    (((createInvoice initState 1 2 100 0 "").1.invoices 0).issuer ≠ 0 ↔
      0 < (createInvoice initState 1 2 100 0 "").1.nextInvoiceId) :=
  issuer_nonzero_iff_lt_nextInvoiceId _
    (Reachable.create initState 1 2 100 0 "" Reachable.init (by decide)) 0

/-- C2: on an existing, non-cancelled invoice with positive remaining
amount, an authorized positive payment applies exactly
`min(amount_sent, remaining)` to `paidAmount` and credits the excess
`amount_sent - applied` to the caller's pending-returns balance. -/
theorem payInvoice_min_applied_overpay (s : LedgerState)
    (caller invoiceId value : Nat) (hv : 0 < value)
    (hex : (s.invoices invoiceId).issuer ≠ 0)
    (hnc : (s.invoices invoiceId).cancelled = false)
    (hauth : (s.invoices invoiceId).payer = 0 ∨
      (s.invoices invoiceId).payer = caller)
    (hrem : 0 < (s.invoices invoiceId).amount -
      (s.invoices invoiceId).paidAmount) :
    (payInvoice s caller invoiceId value).2 =
      Except.ok
        (min value ((s.invoices invoiceId).amount -
           (s.invoices invoiceId).paidAmount),
         (s.invoices invoiceId).paidAmount +
           min value ((s.invoices invoiceId).amount -
             (s.invoices invoiceId).paidAmount)) ∧
    ((payInvoice s caller invoiceId value).1.invoices invoiceId).paidAmount =
      (s.invoices invoiceId).paidAmount +
        min value ((s.invoices invoiceId).amount -
          (s.invoices invoiceId).paidAmount) ∧
    (payInvoice s caller invoiceId value).1.pendingReturns caller =
      s.pendingReturns caller +
        (value - min value ((s.invoices invoiceId).amount -
          (s.invoices invoiceId).paidAmount)) := by
  have hv' : ¬ value = 0 := by omega
  have hcanc' : ¬ (s.invoices invoiceId).cancelled = true := by simp [hnc]
  have hrem' : ¬ ((s.invoices invoiceId).amount -
      (s.invoices invoiceId).paidAmount = 0) := by omega
  simp only [payInvoice]
  rw [if_neg hv', if_neg hex, if_neg hcanc', if_neg (not_not_intro hauth),
    if_neg hrem']
  by_cases hover : (s.invoices invoiceId).amount -
      (s.invoices invoiceId).paidAmount < value
  · have hmin : min value ((s.invoices invoiceId).amount -
        (s.invoices invoiceId).paidAmount) =
        (s.invoices invoiceId).amount - (s.invoices invoiceId).paidAmount :=
      Nat.min_eq_right (Nat.le_of_lt hover)
    rw [if_pos hover]
    refine ⟨?_, ?_, ?_⟩ <;> simp [hmin, hover, Function.update_same]
  · have hmin : min value ((s.invoices invoiceId).amount -
        (s.invoices invoiceId).paidAmount) = value :=
      Nat.min_eq_left (Nat.le_of_not_lt hover)
    rw [if_neg hover]
    refine ⟨?_, ?_, ?_⟩ <;> simp [hmin, hover, Function.update_same]

theorem payInvoice_min_applied_overpay_witness :
    ((payInvoice (createInvoice initState 1 2 100 0 "").1 2 0
        150).1.invoices 0).paidAmount = 100 ∧
    (payInvoice (createInvoice initState 1 2 100 0 "").1 2 0
        150).1.pendingReturns 2 = 50 := by
  have h := payInvoice_min_applied_overpay
    (createInvoice initState 1 2 100 0 "").1 2 0 150 (by decide) (by decide)
    (by decide) (Or.inr (by decide)) (by decide)
  exact ⟨h.2.1.trans (by decide), h.2.2.trans (by decide)⟩

/-- C3: `getRemainingAmount` returns `max(amount - paidAmount, 0)` for every
existing invoice and fails `InvoiceNotFound` when the record is absent
(zero issuer); consequently, after create(amount), full payment and a
successful issuer withdraw, it reports the full amount again. -/
theorem getRemainingAmount_spec :
    (∀ s invoiceId, (s.invoices invoiceId).issuer = 0 →
      getRemainingAmount s invoiceId =
        Except.error LedgerError.InvoiceNotFound) ∧
    (∀ s invoiceId, (s.invoices invoiceId).issuer ≠ 0 →
      getRemainingAmount s invoiceId =
        Except.ok (Int.toNat (max (((s.invoices invoiceId).amount : Int) -
          ((s.invoices invoiceId).paidAmount : Int)) 0))) ∧
    (∀ amount, 0 < amount →
      getRemainingAmount
        (withdraw (payInvoice (createInvoice initState 1 2 amount 0 "").1
          2 0 amount).1 1 0 true).1 0 = Except.ok amount) := by
  refine ⟨?_, ?_, ?_⟩
  · intro s invoiceId h
    simp only [getRemainingAmount]
    rw [if_pos h]
  · intro s invoiceId h
    simp only [getRemainingAmount]
    rw [if_neg h]
    split_ifs with hlt
    · have hmax : max (((s.invoices invoiceId).amount : Int) -
          ((s.invoices invoiceId).paidAmount : Int)) 0 =
          ((s.invoices invoiceId).amount : Int) -
            ((s.invoices invoiceId).paidAmount : Int) :=
        max_eq_left (by omega)
      rw [hmax]
      congr 1
      omega
    · have hmax : max (((s.invoices invoiceId).amount : Int) -
          ((s.invoices invoiceId).paidAmount : Int)) 0 = 0 :=
        max_eq_right (by omega)
      rw [hmax]
      rfl
  · intro amount hA
    have hA' : ¬ amount = 0 := by omega
    simp [createInvoice, payInvoice, withdraw, getRemainingAmount,
      initState, emptyInvoice, Function.update_same, hA, hA']

theorem getRemainingAmount_spec_witness :
    getRemainingAmount
      (withdraw (payInvoice (createInvoice initState 1 2 100 0 "").1
        2 0 100).1 1 0 true).1 0 = Except.ok 100 :=
  getRemainingAmount_spec.2.2 100 (by decide)

/-- C4: a successful `cancelInvoice` by the issuer on a not-yet-cancelled
invoice sets `cancelled := true`; when `paidAmount > 0` and the invoice has a
specific payer it credits the payer's pending returns and zeroes
`paidAmount`; when the invoice is open (`payer = 0`) the paid amount and all
pending-returns balances are untouched. -/
theorem cancelInvoice_spec (s : LedgerState) (caller invoiceId : Nat)
    (hex : (s.invoices invoiceId).issuer ≠ 0)
    (hiss : (s.invoices invoiceId).issuer = caller)
    (hnc : (s.invoices invoiceId).cancelled = false) :
    (cancelInvoice s caller invoiceId).2 = Except.ok () ∧
    ((cancelInvoice s caller invoiceId).1.invoices invoiceId).cancelled =
      true ∧
    (0 < (s.invoices invoiceId).paidAmount →
      (s.invoices invoiceId).payer ≠ 0 →
      ((cancelInvoice s caller invoiceId).1.invoices invoiceId).paidAmount =
          0 ∧
        (cancelInvoice s caller invoiceId).1.pendingReturns
            ((s.invoices invoiceId).payer) =
          s.pendingReturns ((s.invoices invoiceId).payer) +
            (s.invoices invoiceId).paidAmount) ∧
    ((s.invoices invoiceId).payer = 0 →
      ((cancelInvoice s caller invoiceId).1.invoices invoiceId).paidAmount =
          (s.invoices invoiceId).paidAmount ∧
        (cancelInvoice s caller invoiceId).1.pendingReturns =
          s.pendingReturns) := by
  have hnc' : ¬ (s.invoices invoiceId).cancelled = true := by simp [hnc]
  simp only [cancelInvoice]
  rw [if_neg hex, if_neg (not_not_intro hiss), if_neg hnc']
  split_ifs with href
  · refine ⟨rfl, by simp [Function.update_same],
      fun hp hpay => ⟨by simp [Function.update_same],
        by simp [Function.update_same]⟩,
      fun hz => absurd hz href.2⟩
  · refine ⟨rfl, by simp [Function.update_same],
      fun hp hpay => absurd ⟨hp, hpay⟩ href,
      fun hz => ⟨by simp [Function.update_same], rfl⟩⟩

theorem cancelInvoice_spec_witness :
    ((cancelInvoice (payInvoice (createInvoice initState 1 0 100 0 "").1
        3 0 30).1 1 0).1.invoices 0).cancelled = true ∧
    ((cancelInvoice (payInvoice (createInvoice initState 1 0 100 0 "").1
        3 0 30).1 1 0).1.invoices 0).paidAmount = 30 := by
  have h := cancelInvoice_spec
    (payInvoice (createInvoice initState 1 0 100 0 "").1 3 0 30).1 1 0
    (by decide) (by decide) (by decide)
  exact ⟨h.2.1, ((h.2.2.2 (by decide)).1).trans (by rfl)⟩

/-- C5: a successful issuer `withdraw` on an invoice with positive
`paidAmount` returns exactly the previously collected amount (captured
before the zeroing), resets `paidAmount` to 0, and a second `withdraw` with
no intervening payment fails `NoFundsToWithdraw` whatever the transfer
outcome. -/
theorem withdraw_spec (s : LedgerState) (caller invoiceId : Nat)
    (hex : (s.invoices invoiceId).issuer ≠ 0)
    (hiss : (s.invoices invoiceId).issuer = caller)
    (hp : 0 < (s.invoices invoiceId).paidAmount) :
    (withdraw s caller invoiceId true).2 =
      Except.ok ((s.invoices invoiceId).paidAmount) ∧
    ((withdraw s caller invoiceId true).1.invoices invoiceId).paidAmount =
      0 ∧
    (∀ transferOk,
      (withdraw (withdraw s caller invoiceId true).1 caller invoiceId
        transferOk).2 = Except.error LedgerError.NoFundsToWithdraw) := by
  have hp' : ¬ (s.invoices invoiceId).paidAmount = 0 := by omega
  simp only [withdraw]
  rw [if_neg hex, if_neg (not_not_intro hiss), if_neg hp', if_pos trivial]
  have hc : ¬ caller = 0 := by rw [← hiss]; exact hex
  refine ⟨rfl, by simp [Function.update_same], fun transferOk => ?_⟩
  simp [withdraw, Function.update_same, hex, hiss, hc]

theorem withdraw_spec_witness :
    (withdraw (payInvoice (createInvoice initState 1 2 100 0 "").1 2 0
        100).1 1 0 true).2 = Except.ok 100 ∧
    (withdraw (withdraw (payInvoice (createInvoice initState 1 2 100 0
        "").1 2 0 100).1 1 0 true).1 1 0 false).2 =
      Except.error LedgerError.NoFundsToWithdraw := by
  have h := withdraw_spec
    (payInvoice (createInvoice initState 1 2 100 0 "").1 2 0 100).1 1 0
    (by decide) (by decide) (by decide)
  exact ⟨h.1.trans (by rfl), h.2.2 false⟩

/-- C6: every failing call of the operation surface leaves the ledger state
exactly as it was: validation errors are raised before any mutation, and a
transfer failure in withdraw/withdrawPending reverts the provisional
zeroing atomically. -/
theorem failed_calls_leave_state_unchanged :
    (∀ s caller payer amount dueDate metadata e,
      (createInvoice s caller payer amount dueDate metadata).2 =
          Except.error e →
        (createInvoice s caller payer amount dueDate metadata).1 = s) ∧
    (∀ s caller invoiceId value e,
      (payInvoice s caller invoiceId value).2 = Except.error e →
        (payInvoice s caller invoiceId value).1 = s) ∧
    (∀ s caller invoiceId transferOk e,
      (withdraw s caller invoiceId transferOk).2 = Except.error e →
        (withdraw s caller invoiceId transferOk).1 = s) ∧
    (∀ s caller invoiceId e,
      (cancelInvoice s caller invoiceId).2 = Except.error e →
        (cancelInvoice s caller invoiceId).1 = s) ∧
    (∀ s caller transferOk e,
      (withdrawPending s caller transferOk).2 = Except.error e →
        (withdrawPending s caller transferOk).1 = s) := by
  refine ⟨?_, ?_, ?_, ?_, ?_⟩
  · intro s caller payer amount dueDate metadata e h
    simp only [createInvoice] at h ⊢
    split_ifs at h ⊢ <;> rfl
  · intro s caller invoiceId value e h
    simp only [payInvoice] at h ⊢
    split_ifs at h ⊢ <;> rfl
  · intro s caller invoiceId transferOk e h
    simp only [withdraw] at h ⊢
    split_ifs at h ⊢ <;> rfl
  · intro s caller invoiceId e h
    simp only [cancelInvoice] at h ⊢
    split_ifs at h ⊢ <;> rfl
  · intro s caller transferOk e h
    simp only [withdrawPending] at h ⊢
    split_ifs at h ⊢ <;> rfl

theorem failed_calls_leave_state_unchanged_witness :
    (withdraw initState 1 0 true).2 =
      Except.error LedgerError.InvoiceNotFound ∧
    (withdraw initState 1 0 true).1 = initState :=
  ⟨by rfl, failed_calls_leave_state_unchanged.2.2.1 initState 1 0 true
    LedgerError.InvoiceNotFound (by rfl)⟩

/-- C7: payInvoice fails exactly under the five listed conditions, checked
in the order InvalidAmount, InvoiceNotFound, InvoiceCancelled,
UnauthorizedPayer, AlreadyFullyPaid; with none of them it succeeds. -/
theorem payInvoice_failure_characterisation (s : LedgerState)
    (caller invoiceId value : Nat) :
    ((payInvoice s caller invoiceId value).2 =
        Except.error LedgerError.InvalidAmount ↔ value = 0) ∧
    (value ≠ 0 →
      ((payInvoice s caller invoiceId value).2 =
          Except.error LedgerError.InvoiceNotFound ↔
        (s.invoices invoiceId).issuer = 0)) ∧
    (value ≠ 0 → (s.invoices invoiceId).issuer ≠ 0 →
      ((payInvoice s caller invoiceId value).2 =
          Except.error LedgerError.InvoiceCancelled ↔
        (s.invoices invoiceId).cancelled = true)) ∧
    (value ≠ 0 → (s.invoices invoiceId).issuer ≠ 0 →
      (s.invoices invoiceId).cancelled = false →
      ((payInvoice s caller invoiceId value).2 =
          Except.error LedgerError.UnauthorizedPayer ↔
        ((s.invoices invoiceId).payer ≠ 0 ∧
          (s.invoices invoiceId).payer ≠ caller))) ∧
    (value ≠ 0 → (s.invoices invoiceId).issuer ≠ 0 →
      (s.invoices invoiceId).cancelled = false →
      ((s.invoices invoiceId).payer = 0 ∨
        (s.invoices invoiceId).payer = caller) →
      ((payInvoice s caller invoiceId value).2 =
          Except.error LedgerError.AlreadyFullyPaid ↔
        (s.invoices invoiceId).amount -
          (s.invoices invoiceId).paidAmount = 0)) ∧
    (value ≠ 0 → (s.invoices invoiceId).issuer ≠ 0 →
      (s.invoices invoiceId).cancelled = false →
      ((s.invoices invoiceId).payer = 0 ∨
        (s.invoices invoiceId).payer = caller) →
      (s.invoices invoiceId).amount -
        (s.invoices invoiceId).paidAmount ≠ 0 →
      ∃ r, (payInvoice s caller invoiceId value).2 = Except.ok r) := by
  simp only [payInvoice]
  split_ifs <;> (try simp_all) <;> tauto

theorem payInvoice_failure_characterisation_witness :
    (payInvoice initState 1 0 0).2 =
      Except.error LedgerError.InvalidAmount :=
  (payInvoice_failure_characterisation initState 1 0 0).1.mpr rfl

/-- C8: withdraw performs no cancelled check: on a cancelled invoice that
still holds funds, the issuer's withdraw succeeds and pays out the
collected amount. -/
theorem withdraw_ignores_cancelled (s : LedgerState) (caller invoiceId : Nat)
    (hex : (s.invoices invoiceId).issuer ≠ 0)
    (hcanc : (s.invoices invoiceId).cancelled = true)
    (hiss : (s.invoices invoiceId).issuer = caller)
    (hp : 0 < (s.invoices invoiceId).paidAmount) :
    (withdraw s caller invoiceId true).2 =
      Except.ok ((s.invoices invoiceId).paidAmount) := by
  have hp' : ¬ (s.invoices invoiceId).paidAmount = 0 := by omega
  simp only [withdraw]
  rw [if_neg hex, if_neg (not_not_intro hiss), if_neg hp', if_pos trivial]

theorem withdraw_ignores_cancelled_witness :
    (withdraw (cancelInvoice (payInvoice (createInvoice initState 1 0 100 0
        "").1 3 0 30).1 1 0).1 1 0 true).2 = Except.ok 30 := by
  have h := withdraw_ignores_cancelled
    (cancelInvoice (payInvoice (createInvoice initState 1 0 100 0 "").1
      3 0 30).1 1 0).1 1 0 (by decide) (by decide) (by decide) (by decide)
  exact h.trans (by rfl)

/-- C9: frame property of payInvoice: a successful payment for `invoiceId`
by `caller` changes only that invoice's `paidAmount` and (on overpayment)
`caller`'s pending-returns entry; all other invoices, all other accounts'
pending returns, the metadata map, both indices and `nextInvoiceId` stay
unchanged. -/
theorem payInvoice_frame (s : LedgerState) (caller invoiceId value : Nat)
    (r : Nat × Nat)
    (hok : (payInvoice s caller invoiceId value).2 = Except.ok r) :
    (∀ j, j ≠ invoiceId →
      (payInvoice s caller invoiceId value).1.invoices j = s.invoices j) ∧
    ((payInvoice s caller invoiceId value).1.invoices invoiceId).id =
      (s.invoices invoiceId).id ∧
    ((payInvoice s caller invoiceId value).1.invoices invoiceId).issuer =
      (s.invoices invoiceId).issuer ∧
    ((payInvoice s caller invoiceId value).1.invoices invoiceId).payer =
      (s.invoices invoiceId).payer ∧
    ((payInvoice s caller invoiceId value).1.invoices invoiceId).amount =
      (s.invoices invoiceId).amount ∧
    ((payInvoice s caller invoiceId value).1.invoices invoiceId).dueDate =
      (s.invoices invoiceId).dueDate ∧
    ((payInvoice s caller invoiceId value).1.invoices invoiceId).cancelled =
      (s.invoices invoiceId).cancelled ∧
    (∀ a, a ≠ caller →
      (payInvoice s caller invoiceId value).1.pendingReturns a =
        s.pendingReturns a) ∧
    (payInvoice s caller invoiceId value).1.invoiceMetadata =
      s.invoiceMetadata ∧
    (payInvoice s caller invoiceId value).1.invoicesOfIssuer =
      s.invoicesOfIssuer ∧
    (payInvoice s caller invoiceId value).1.invoicesOfPayer =
      s.invoicesOfPayer ∧
    (payInvoice s caller invoiceId value).1.nextInvoiceId =
      s.nextInvoiceId := by
  simp only [payInvoice] at hok ⊢
  split_ifs at hok ⊢ with h1 h2 h3 h4 h5 h6 <;> try simp at hok
  all_goals {
    refine ⟨fun j hj => Function.update_noteq hj _ _,
      by simp [Function.update_same], by simp [Function.update_same],
      by simp [Function.update_same], by simp [Function.update_same],
      by simp [Function.update_same], by simp [Function.update_same],
      fun a ha => ?_, rfl, rfl, rfl, rfl⟩
    first
    | exact Function.update_noteq ha _ _
    | rfl
  }

theorem payInvoice_frame_witness :
    (payInvoice (createInvoice (createInvoice initState 1 2 100 0 "").1
      1 2 50 0 "").1 2 0 150).1.invoices 1 =
    (createInvoice (createInvoice initState 1 2 100 0 "").1
      1 2 50 0 "").1.invoices 1 := by
  have h := payInvoice_frame
    (createInvoice (createInvoice initState 1 2 100 0 "").1 1 2 50 0 "").1
    2 0 150 (100, 100) (by rfl)
  exact h.1 1 (by decide)
